import Mathlib

/-!
Verification of the YouTube cookie refresh engine
(`scripts/refresh-cookies.js`): shallow embedding of the credential
pool, login driver result classification, session validator, session
store and retry/failover controller, together with theorems about the
properties claimed for them.

String values are modelled by `String`; the JavaScript string
operations `includes` / `startsWith` are modelled on the underlying
character lists.  Machine time (`Date.now()`) is passed explicitly as a
parameter wherever the source reads the clock.
-/

/-- Models the JavaScript `s.startsWith(pat)` test used on cookie domains. -/
def strStartsWith (s pat : String) : Bool :=
  decide (pat.data <+: s.data)

/-- Models the JavaScript `s.includes(pat)` test used on cookie domains. -/
def strContains (s pat : String) : Bool :=
  decide (pat.data <:+: s.data)

/-- A cookie as harvested from the browser (`page.cookies()`); the fields the
script reads.  `expires` is epoch seconds, `-1` for session-only cookies.
Fields the browser may omit and that the script defaults with `||` are
`Option`s (for booleans) or use `""` for the absent string. -/
structure RawCookie where
  domain : String
  expires : Int
  httpOnly : Option Bool
  name : String
  path : String
  sameSite : String
  secure : Option Bool
  session : Option Bool
  value : String
deriving Repr, DecidableEq

/-- The yt-dlp-facing record produced by `convertCookies`. -/
structure NormalizedCookie where
  domain : String
  expirationDate : Int
  hostOnly : Bool
  httpOnly : Bool
  name : String
  path : String
  sameSite : String
  secure : Bool
  session : Bool
  storeId : String
  value : String
deriving Repr, DecidableEq

/-- The `ESSENTIAL_COOKIES` constant (line 37 of the script). -/
def ESSENTIAL_COOKIES : List String :=
  ["SID", "HSID", "SSID", "APISID", "SAPISID", "LOGIN_INFO"]

/-- The `validateCookies` function (lines 141-158): fails when an essential
name is missing from the harvested set, or when a cookie bearing an
essential name has a falsy (empty) value. -/
def validateCookies (cookies : List RawCookie) : Bool :=
  let cookieNames := cookies.map (fun c => c.name)
  let missingCookies := ESSENTIAL_COOKIES.filter (fun nm => !(decide (nm ∈ cookieNames)))
  if missingCookies.length > 0 then false
  else
    let emptyCookies :=
      cookies.filter (fun c => decide (c.name ∈ ESSENTIAL_COOKIES) && decide (c.value = ""))
    if emptyCookies.length > 0 then false else true

/-- The per-cookie body of `convertCookies` (lines 165-179).  `now` is
`Math.floor(Date.now() / 1000)` at the moment of the call. -/
def convertCookie (now : Int) (cookie : RawCookie) : NormalizedCookie :=
  { domain := cookie.domain
    expirationDate := if cookie.expires > 0 then cookie.expires else now + 86400 * 365
    hostOnly := !(strStartsWith cookie.domain ("."))
    httpOnly := cookie.httpOnly.getD false
    name := cookie.name
    path := if cookie.path = "" then "/" else cookie.path
    sameSite := if cookie.sameSite = "" then "unspecified" else cookie.sameSite
    secure := cookie.secure.getD false
    session := cookie.session.getD false
    storeId := "0"
    value := cookie.value }

/-- The `convertCookies` function (lines 165-179). -/
def convertCookies (now : Int) (puppeteerCookies : List RawCookie) : List NormalizedCookie :=
  puppeteerCookies.map (convertCookie now)

/-- The domain filter applied to harvested cookies (lines 527-531). -/
def domainRelevant (d : String) : Bool :=
  strContains d ("youtube.com") || strContains d ("google.com") || strContains d (".google.")

/-- Observable environment of one login attempt: the outcomes of the page
probes `attemptLogin` (lines 223-552) branches on.  `throws` covers any
exception reaching the catch-all handler (timeouts included). -/
structure AttemptEnv where
  passwordFieldAppears : Bool
  pageHasCaptcha : Bool
  pageHasAccountNotFound : Bool
  pageHasVerifyIdentity : Bool
  postLoginHas2FA : Bool
  postLoginWrongPassword : Bool
  harvestedCookies : List RawCookie
  throws : Bool
deriving Repr, DecidableEq

/-- The result of `attemptLogin` (lines 223-552) as a function of the
attempt's environment: every failure branch — exception, missing password
field (whether classified as CAPTCHA, unknown account, verification, or
unknown), 2FA, wrong password, failed validation — returns `null`
(modelled `none`); otherwise the harvested cookies are filtered, validated
and converted. -/
def attemptLogin (now : Int) (env : AttemptEnv) : Option (List NormalizedCookie) :=
  if env.throws then none
  else if !env.passwordFieldAppears then none
  else if env.postLoginHas2FA then none
  else if env.postLoginWrongPassword then none
  else
    let filteredCookies := env.harvestedCookies.filter (fun c => domainRelevant c.domain)
    if !validateCookies filteredCookies then none
    else some (convertCookies now filteredCookies)

/-- Driver-side classification of an attempt environment as a terminal
failure in the sense of the specification's taxonomy: `Detection`
(CAPTCHA signals), `CredentialError` (unknown account or wrong password)
or `VerificationRequired` (identity challenge or 2FA), as matched by the
page probes of lines 414-489. -/
def specTerminalFailure (env : AttemptEnv) : Bool :=
  (!env.passwordFieldAppears &&
    (env.pageHasCaptcha || env.pageHasAccountNotFound || env.pageHasVerifyIdentity)) ||
  env.postLoginHas2FA || env.postLoginWrongPassword

/-- One account record of `config/accounts.json`; `enabled` is `none` when
the field is absent. -/
structure AccountRec where
  email : String
  password : String
  enabled : Option Bool
deriving Repr, DecidableEq

/-- The `rotation` block of the configuration; every field optional. -/
structure RotationRec where
  strategy : Option String
  failover : Option Bool
  maxRetries : Option Nat
deriving Repr, DecidableEq

/-- A parsed configuration file.  `accounts := none` models an object with
no (or a non-array) `accounts` property. -/
structure ConfigSrc where
  accounts : Option (List AccountRec)
  rotation : Option RotationRec
deriving Repr, DecidableEq

/-- The configuration after `loadAccountsConfig` succeeds. -/
structure LoadedConfig where
  accounts : List AccountRec
  rotation : Option RotationRec
deriving Repr, DecidableEq

/-- The `loadAccountsConfig` function (lines 84-114).  The argument is
`none` when the file is missing or unparsable (both produce `null` via
the early return or the catch).  Returns `null` (`none`) when there is no
accounts list, when it is empty, and when every account is disabled;
accounts with `enabled === false` are filtered out. -/
def loadAccountsConfig (src : Option ConfigSrc) : Option LoadedConfig :=
  match src with
  | none => none
  | some config =>
    match config.accounts with
    | none => none
    | some accs =>
      if accs.length = 0 then none
      else
        let enabledAccs := accs.filter (fun acc => decide (acc.enabled ≠ some false))
        if enabledAccs.length = 0 then none
        else some { accounts := enabledAccs, rotation := config.rotation }

/-- The expression `rotation?.maxRetries || 3` (line 569): a missing
rotation block, a missing field, and the falsy value `0` all default
to `3`. -/
def maxRetriesPerAccount (rotation : Option RotationRec) : Nat :=
  match rotation with
  | none => 3
  | some r =>
    match r.maxRetries with
    | none => 3
    | some n => if n = 0 then 3 else n

/-- Path constant `COOKIES_OUTPUT_PATH` relative to the root directory. -/
def COOKIES_OUTPUT_PATH : String := "cookies.json"

/-- Backup file name produced at line 189 for timestamp `t`
(`cookies.json` with `.json` replaced by `.backup_<t>.json`). -/
def backupName (t : Nat) : String :=
  "cookies.backup_" ++ toString t ++ ".json"

/-- A backup file: its millisecond timestamp and the session content it
preserves. -/
abbrev Backup := Nat × List NormalizedCookie

/-- The on-disk state owned by the session store: the content of
`cookies.json` (if present) and the set of `cookies.backup_*` files. -/
structure StoreState where
  sessionFile : Option (List NormalizedCookie)
  backups : List Backup
deriving Repr, DecidableEq

/-- Filesystem operations performed by `saveCookies`, in order. -/
inductive FsOp where
  | copyFile : String → String → FsOp
  | unlink : String → FsOp
  | writeFile : String → List NormalizedCookie → FsOp
  | rename : String → String → FsOp
deriving Repr, DecidableEq

/-- Insertion step of the timestamp sort used on backup file names. -/
def insertBackupDesc (b : Backup) : List Backup → List Backup
  | [] => [b]
  | c :: cs => if c.1 ≤ b.1 then b :: c :: cs else c :: insertBackupDesc b cs

/-- Models `backups.sort().reverse()` (lines 194-197): the lexicographic
sort of the backup file names coincides with the numeric order of the
embedded timestamps (all `Date.now()` values have the same digit count),
so the result is the backup list in descending timestamp order. -/
def sortBackupsDesc : List Backup → List Backup
  | [] => []
  | b :: bs => insertBackupDesc b (sortBackupsDesc bs)

/-- The `saveCookies` function (lines 185-214) acting on the store state,
also returning the filesystem operations it performs.  When `cookies.json`
exists it is first copied to a timestamped backup (overwriting an
equally-named one), backups beyond the 5 most recent are unlinked, and
then the new array is written directly to `cookies.json` with a single
`writeFileSync`. -/
def saveCookies (now : Nat) (cookies : List NormalizedCookie) (s : StoreState) :
    StoreState × List FsOp :=
  match s.sessionFile with
  | none =>
    ({ sessionFile := some cookies, backups := s.backups },
      [FsOp.writeFile COOKIES_OUTPUT_PATH cookies])
  | some oldContent =>
    let withNew : List Backup :=
      (now, oldContent) :: s.backups.filter (fun b => decide (b.1 ≠ now))
    let sorted := sortBackupsDesc withNew
    let kept := if 5 < sorted.length then sorted.take 5 else sorted
    let removed := if 5 < sorted.length then sorted.drop 5 else []
    ({ sessionFile := some cookies, backups := kept },
      FsOp.copyFile COOKIES_OUTPUT_PATH (backupName now) ::
        (removed.map (fun b => FsOp.unlink (backupName b.1)) ++
          [FsOp.writeFile COOKIES_OUTPUT_PATH cookies]))

/-- Iterated persists: the store state after a sequence of
(timestamp, new content) saves. -/
def runPersists : StoreState → List (Nat × List NormalizedCookie) → StoreState
  | s, [] => s
  | s, p :: ps => runPersists (saveCookies p.1 p.2 s).1 ps

/-- The prior session state captured by the backup of each persist in a
sequence: persist `i` backs up the content that persist `i - 1` wrote
(the initial content for `i = 0`), under persist `i`'s timestamp. -/
def backupHistory : List NormalizedCookie → List (Nat × List NormalizedCookie) → List Backup
  | _, [] => []
  | cur, p :: ps => (p.1, cur) :: backupHistory p.2 ps

/-- Whether an operation is a plain write to path `p`. -/
def FsOp.isWriteTo (p : String) : FsOp → Bool
  | FsOp.writeFile q _ => decide (q = p)
  | _ => false

/-- Whether an operation is a rename onto path `p`. -/
def FsOp.isRenameTo (p : String) : FsOp → Bool
  | FsOp.rename _ q => decide (q = p)
  | _ => false

/-- Modelled from the spec ("write the full array atomically;
write-to-temp-then-rename semantics required"): an operation sequence
replaces `finalPath` atomically when it never writes `finalPath` directly
and installs it by renaming some temporary file onto it. -/
def specAtomicPersist (ops : List FsOp) (finalPath : String) : Prop :=
  (∀ op ∈ ops, FsOp.isWriteTo finalPath op = false) ∧
  (∃ op ∈ ops, FsOp.isRenameTo finalPath op = true)

/-- Result of one `attemptLogin` call as seen by the controller loop:
an oracle gives the outcome for account index `i`, attempt number `a`. -/
abbrev Oracle := Nat → Nat → Option (List NormalizedCookie)

/-- The success test of line 611: `cookies && cookies.length > 0`. -/
def attemptSucceeds (o : Oracle) (p : Nat × Nat) : Bool :=
  match o p.1 p.2 with
  | some cs => !cs.isEmpty
  | none => false

/-- The retry loop for one account (lines 606-622), run over the list of
remaining attempt numbers: stops at the first attempt returning a
non-empty cookie list, otherwise retries; returns the trace of
(account, attempt) pairs executed and the final result. -/
def runAttempts (o : Oracle) (i : Nat) : List Nat → List (Nat × Nat) × Option (List NormalizedCookie)
  | [] => ([], none)
  | a :: rest =>
    match o i a with
    | some cs =>
      if cs.isEmpty then
        ((i, a) :: (runAttempts o i rest).1, (runAttempts o i rest).2)
      else ([(i, a)], some cs)
    | none => ((i, a) :: (runAttempts o i rest).1, (runAttempts o i rest).2)

/-- All attempts the inner loop makes for one account: attempt numbers
`1 .. maxR` (the loop header of line 606). -/
def tryAccount (o : Oracle) (maxR i : Nat) : List (Nat × Nat) × Option (List NormalizedCookie) :=
  runAttempts o i (List.range' 1 maxR)

/-- The account loop (lines 601-631) over a list of account indices:
runs each account's retry loop in order, stopping at the first account
that yields cookies; `rotation?.failover` is read only for a log line and
does not influence the flow. -/
def runAccounts (o : Oracle) (maxR : Nat) : List Nat → List (Nat × Nat) × Option (Nat × List NormalizedCookie)
  | [] => ([], none)
  | i :: rest =>
    match (tryAccount o maxR i).2 with
    | some cs => ((tryAccount o maxR i).1, some (i, cs))
    | none =>
      ((tryAccount o maxR i).1 ++ (runAccounts o maxR rest).1, (runAccounts o maxR rest).2)

/-- The controller for `n` accounts in configuration order. -/
def runController (o : Oracle) (maxR n : Nat) : List (Nat × Nat) × Option (Nat × List NormalizedCookie) :=
  runAccounts o maxR (List.range n)

/-- Outcome of one run of the script. -/
structure RunResult where
  attempts : List (Nat × Nat)
  successAccount : Option Nat
  savedCookies : Option (List NormalizedCookie)
  exitCode : Option Nat
  fsOps : List FsOp
  finalStore : StoreState
deriving Repr, DecidableEq

/-- The `refreshCookies` entry point (lines 557-656): load the
configuration (exit 1 on failure), run the account loop, and either save
the successful cookies or exit 1 with every account exhausted and the
store untouched. -/
def refreshCookies (src : Option ConfigSrc) (o : Oracle) (now : Nat) (store : StoreState) :
    RunResult :=
  match loadAccountsConfig src with
  | none =>
    { attempts := [], successAccount := none, savedCookies := none,
      exitCode := some 1, fsOps := [], finalStore := store }
  | some config =>
    let maxR := maxRetriesPerAccount config.rotation
    let run := runController o maxR config.accounts.length
    match run.2 with
    | some ics =>
      let sv := saveCookies now ics.2 store
      { attempts := run.1, successAccount := some ics.1, savedCookies := some ics.2,
        exitCode := none, fsOps := sv.2, finalStore := sv.1 }
    | none =>
      { attempts := run.1, successAccount := none, savedCookies := none,
        exitCode := some 1, fsOps := [], finalStore := store }

/-- Replace the `failover` field of a configuration's rotation block. -/
def withFailover (b : Option Bool) (cfg : ConfigSrc) : ConfigSrc :=
  { cfg with rotation := cfg.rotation.map (fun r => { r with failover := b }) }

/-- Empty store: no `cookies.json`, no backups. -/
def emptyStore : StoreState := { sessionFile := none, backups := [] }

/-- Store holding an (empty) session file and no backups. -/
def plainStore : StoreState := { sessionFile := some [], backups := [] }

/-- An attempt on which the password field never appears and the page shows
CAPTCHA markers: the `Detection` terminal failure of the specification. -/
def captchaEnv : AttemptEnv :=
  { passwordFieldAppears := false, pageHasCaptcha := true, pageHasAccountNotFound := false,
    pageHasVerifyIdentity := false, postLoginHas2FA := false, postLoginWrongPassword := false,
    harvestedCookies := [], throws := false }

/-- A harvested cookie bearing essential name `nm`, with a fixed positive
expiry and a relevant domain. -/
def essentialRaw (nm : String) : RawCookie :=
  { domain := ".youtube.com", expires := 1700000000, httpOnly := some true, name := nm,
    path := "/", sameSite := "", secure := some true, session := some false, value := "value-" ++ nm }

/-- A full harvest: all six essential cookies plus an inessential extra. -/
def goodHarvest : List RawCookie :=
  ESSENTIAL_COOKIES.map essentialRaw ++
    [{ domain := ".youtube.com", expires := 1700000000, httpOnly := some false, name := "PREF",
       path := "/", sameSite := "", secure := some false, session := some false, value := "x" }]

/-- An attempt that goes all the way through and harvests `goodHarvest`. -/
def goodEnv : AttemptEnv :=
  { passwordFieldAppears := true, pageHasCaptcha := false, pageHasAccountNotFound := false,
    pageHasVerifyIdentity := false, postLoginHas2FA := false, postLoginWrongPassword := false,
    harvestedCookies := goodHarvest, throws := false }

/-- A session-only harvested cookie (`expires = -1`). -/
def sessionRawCookie : RawCookie :=
  { domain := ".youtube.com", expires := -1, httpOnly := some false, name := "YSC",
    path := "/", sameSite := "", secure := some true, session := some true, value := "s" }

/-- Oracle under which every attempt of every account hits the CAPTCHA
interstitial (a `Detection` terminal failure every time). -/
def oracleCaptcha : Oracle := fun _ _ => attemptLogin 0 captchaEnv

/-- Oracle under which every attempt returns `null`. -/
def oracleNull : Oracle := fun _ _ => none

/-- Oracle: account 0 always hits CAPTCHA, every other account logs in and
harvests a full cookie set. -/
def oracleSecondAccount : Oracle := fun i _ =>
  if i = 0 then attemptLogin 0 captchaEnv else attemptLogin 0 goodEnv

/-- Configuration with two enabled accounts and failover explicitly
disabled (`rotation.failover = false`). -/
def cfgFailoverOff : ConfigSrc :=
  { accounts := some
      [{ email := "primary@example.com", password := "p1", enabled := some true },
       { email := "backup@example.com", password := "p2", enabled := some true }],
    rotation := some { strategy := some "sequential", failover := some false, maxRetries := some 1 } }

/-- Configuration with one enabled account and no `rotation` block at all. -/
def cfgNoRotation : ConfigSrc :=
  { accounts := some [{ email := "solo@example.com", password := "pw", enabled := some true }],
    rotation := none }

/-- The pool obtained from `cfgNoRotation`. -/
def loadedNoRotation : LoadedConfig :=
  { accounts := [{ email := "solo@example.com", password := "pw", enabled := some true }],
    rotation := none }

/-- An account record with the `enabled` field absent. -/
def accNoFlag : AccountRec := { email := "no-flag@example.com", password := "a", enabled := none }

/-- An account record with `enabled: false`. -/
def accOff : AccountRec := { email := "off@example.com", password := "b", enabled := some false }

/-- An account record with `enabled: true`. -/
def accOn : AccountRec := { email := "on@example.com", password := "c", enabled := some true }

/-- Configuration whose accounts have `enabled` absent, `false` and `true`. -/
def cfgMixedEnabled : ConfigSrc :=
  { accounts := some [accNoFlag, accOff, accOn], rotation := none }

/-- The pool obtained from `cfgMixedEnabled`: the account with the absent
flag participates, the explicitly disabled one does not. -/
def loadedMixed : LoadedConfig :=
  { accounts := [accNoFlag, accOn], rotation := none }

/-- A minimal normalized cookie distinguished by its name, used to label
successive session file contents. -/
def mkNC (nm : String) : NormalizedCookie :=
  { domain := "d", expirationDate := 0, hostOnly := true, httpOnly := false, name := nm,
    path := "/", sameSite := "unspecified", secure := false, session := false,
    storeId := "0", value := "v" }

/-- Six successive persists with increasing timestamps and distinct
contents. -/
def sixPersists : List (Nat × List NormalizedCookie) :=
  [(1, [mkNC ("c1")]), (2, [mkNC ("c2")]), (3, [mkNC ("c3")]),
   (4, [mkNC ("c4")]), (5, [mkNC ("c5")]), (6, [mkNC ("c6")])]

/-- Oracle: account 0 fails both attempts, account 1 succeeds at once. -/
def oracleW7 : Oracle := fun i _ => if i = 0 then none else some [mkNC ("SID")]

theorem validateCookies_eq_true_iff (cs : List RawCookie) :
    validateCookies cs = true ↔
      ((∀ nm ∈ ESSENTIAL_COOKIES, ∃ c ∈ cs, c.name = nm) ∧
        ∀ c ∈ cs, c.name ∈ ESSENTIAL_COOKIES → c.value ≠ "") := by
  simp only [validateCookies]
  split_ifs with h1 h2
  · simp only [Bool.false_eq_true, false_iff]
    rintro ⟨hall, -⟩
    obtain ⟨nm, hnm⟩ := List.exists_mem_of_length_pos h1
    rw [List.mem_filter] at hnm
    obtain ⟨hness, hmiss⟩ := hnm
    obtain ⟨c, hc, hcn⟩ := hall nm hness
    simp only [Bool.not_eq_true', decide_eq_false_iff_not] at hmiss
    exact hmiss (List.mem_map.mpr ⟨c, hc, hcn⟩)
  · simp only [Bool.false_eq_true, false_iff]
    rintro ⟨-, hvals⟩
    obtain ⟨c, hc⟩ := List.exists_mem_of_length_pos h2
    rw [List.mem_filter] at hc
    obtain ⟨hcs, hprop⟩ := hc
    rw [Bool.and_eq_true, decide_eq_true_eq, decide_eq_true_eq] at hprop
    exact hvals c hcs hprop.1 hprop.2
  · simp only [true_iff]
    constructor
    · intro nm hnm
      have hmem : nm ∈ cs.map (fun c => c.name) := by
        by_contra hno
        apply h1
        apply List.length_pos.mpr
        apply List.ne_nil_of_mem (a := nm)
        rw [List.mem_filter]
        exact ⟨hnm, by simp [hno]⟩
      obtain ⟨c, hc, hcn⟩ := List.mem_map.mp hmem
      exact ⟨c, hc, hcn⟩
    · intro c hc hcn hval
      apply h2
      apply List.length_pos.mpr
      apply List.ne_nil_of_mem (a := c)
      rw [List.mem_filter]
      exact ⟨hc, by simp [hcn, hval]⟩

/-- Claim C5: `validateCookies` returns false when any of the six
essential token names is absent, or when a cookie bearing an essential
name has an empty value; it returns true on any set in which every
essential name occurs and every cookie bearing an essential name has a
non-empty value (arbitrary extra cookies allowed). -/
theorem validateCookies_essential_spec (cs : List RawCookie) :
    ((∃ nm ∈ ESSENTIAL_COOKIES, ∀ c ∈ cs, c.name ≠ nm) → validateCookies cs = false) ∧
    ((∃ c ∈ cs, c.name ∈ ESSENTIAL_COOKIES ∧ c.value = "") → validateCookies cs = false) ∧
    ((∀ nm ∈ ESSENTIAL_COOKIES, ∃ c ∈ cs, c.name = nm) →
      (∀ c ∈ cs, c.name ∈ ESSENTIAL_COOKIES → c.value ≠ "") → validateCookies cs = true) := by
  refine ⟨?_, ?_, ?_⟩
  · rintro ⟨nm, hnm, habs⟩
    rw [Bool.eq_false_iff]
    intro htrue
    obtain ⟨c, hc, hcn⟩ := ((validateCookies_eq_true_iff cs).mp htrue).1 nm hnm
    exact habs c hc hcn
  · rintro ⟨c, hc, hcn, hval⟩
    rw [Bool.eq_false_iff]
    intro htrue
    exact ((validateCookies_eq_true_iff cs).mp htrue).2 c hc hcn hval
  · intro hall hvals
    exact (validateCookies_eq_true_iff cs).mpr ⟨hall, hvals⟩

theorem validateCookies_essential_spec_witness :
    ((∀ nm ∈ ESSENTIAL_COOKIES, ∃ c ∈ goodHarvest, c.name = nm) ∧
      (∀ c ∈ goodHarvest, c.name ∈ ESSENTIAL_COOKIES → c.value ≠ "")) ∧
    validateCookies goodHarvest = true :=
  ⟨⟨by decide, by decide⟩,
    (validateCookies_essential_spec goodHarvest).2.2 (by decide) (by decide)⟩

/-- Claim C4 counterexample: converting the same session-only raw cookie
at two different invocation times yields different normalized records, so
normalization is not byte-identical across runs. -/
theorem convertCookies_time_dependent_cex :
    convertCookies 0 [sessionRawCookie] ≠ convertCookies 1 [sessionRawCookie] := by decide

/-- Claim C4 (amended): normalization is a pure function of the raw
record and the invocation time, and it is independent of the invocation
time exactly on records with a positive expiry; session-only records
receive `now + 31536000`, which differs between runs at different
times. -/
theorem convertCookies_deterministic_of_pos_expires (cs : List RawCookie)
    (h : ∀ c ∈ cs, 0 < c.expires) (t t' : Int) :
    convertCookies t cs = convertCookies t' cs := by
  unfold convertCookies
  apply List.map_congr_left
  intro c hc
  unfold convertCookie
  have hpos : c.expires > 0 := h c hc
  simp [hpos]

theorem convertCookies_deterministic_of_pos_expires_witness :
    (∀ c ∈ goodHarvest, 0 < c.expires) ∧
      convertCookies 5 goodHarvest = convertCookies 99 goodHarvest :=
  ⟨by decide, convertCookies_deterministic_of_pos_expires goodHarvest (by decide) 5 99⟩

/-- Claim C3 counterexample: a persist over an existing session file
performs a direct write to `cookies.json` and no rename at all, so it
does not have write-to-temp-then-rename semantics. -/
theorem saveCookies_not_atomic_cex :
    ¬ specAtomicPersist (saveCookies 1 [] plainStore).2 COOKIES_OUTPUT_PATH := by
  unfold specAtomicPersist
  decide

/-- Claim C3 (amended): every persist ends with a single direct
`writeFileSync` of the full normalized array to the final session path,
preceded only by the backup copy and retention unlinks; no rename onto
the session path ever occurs, so the write is not atomic in the
write-to-temp-then-rename sense. -/
theorem saveCookies_direct_write (now : Nat) (cookies : List NormalizedCookie) (s : StoreState) :
    (∃ pre, (saveCookies now cookies s).2 = pre ++ [FsOp.writeFile COOKIES_OUTPUT_PATH cookies]) ∧
    ∀ op ∈ (saveCookies now cookies s).2, FsOp.isRenameTo COOKIES_OUTPUT_PATH op = false := by
  cases h : s.sessionFile with
  | none =>
    refine ⟨⟨[], by simp [saveCookies, h]⟩, ?_⟩
    intro op hop
    simp [saveCookies, h] at hop
    subst hop
    rfl
  | some old =>
    constructor
    · refine ⟨FsOp.copyFile COOKIES_OUTPUT_PATH (backupName now) ::
        ((if 5 < (sortBackupsDesc ((now, old) :: s.backups.filter (fun b => decide (b.1 ≠ now)))).length
            then (sortBackupsDesc ((now, old) :: s.backups.filter (fun b => decide (b.1 ≠ now)))).drop 5
            else []).map (fun b => FsOp.unlink (backupName b.1))), ?_⟩
      simp [saveCookies, h]
    · simp only [saveCookies, h]
      refine List.forall_mem_cons.mpr ⟨rfl, ?_⟩
      intro op hop
      rcases List.mem_append.mp hop with hu | hw
      · obtain ⟨b, -, rfl⟩ := List.mem_map.mp hu
        rfl
      · rw [List.mem_singleton] at hw
        subst hw
        rfl

theorem sortBackupsDesc_eq_self :
    ∀ bs : List Backup, bs.Pairwise (fun x y => y.1 < x.1) → sortBackupsDesc bs = bs := by
  intro bs h
  induction bs with
  | nil => rfl
  | cons b bs ih =>
    obtain ⟨hb, h'⟩ := List.pairwise_cons.mp h
    show insertBackupDesc b (sortBackupsDesc bs) = b :: bs
    rw [ih h']
    cases bs with
    | nil => rfl
    | cons c cs =>
      show (if c.1 ≤ b.1 then b :: c :: cs else c :: insertBackupDesc b cs) = b :: c :: cs
      rw [if_pos (Nat.le_of_lt (hb c (List.mem_cons_self c cs)))]

theorem take5_ite (l : List Backup) :
    (if 5 < l.length then l.take 5 else l) = l.take 5 := by
  split_ifs with h
  · rfl
  · exact (List.take_of_length_le (Nat.le_of_not_lt h)).symm

theorem take_append_take {α : Type} (n : Nat) (xs ys : List α) :
    (xs ++ ys.take n).take n = (xs ++ ys).take n := by
  rw [List.take_append_eq_append_take, List.take_append_eq_append_take, List.take_take,
    Nat.min_eq_left (Nat.sub_le n xs.length)]

theorem backupHistory_length :
    ∀ (cur : List NormalizedCookie) (ps : List (Nat × List NormalizedCookie)),
      (backupHistory cur ps).length = ps.length := by
  intro cur ps
  induction ps generalizing cur with
  | nil => rfl
  | cons p rest ih => simp [backupHistory, ih]

theorem runPersists_backups_inv (ps : List (Nat × List NormalizedCookie)) :
    ∀ (cur : List NormalizedCookie) (bs : List Backup),
      ps.Pairwise (fun p q => p.1 < q.1) →
      bs.Pairwise (fun x y => y.1 < x.1) →
      (∀ b ∈ bs, ∀ p ∈ ps, b.1 < p.1) →
      bs.length ≤ 5 →
      (runPersists { sessionFile := some cur, backups := bs } ps).backups =
        ((backupHistory cur ps).reverse ++ bs).take 5 := by
  induction ps with
  | nil =>
    intro cur bs _ _ _ hlen
    simp [runPersists, backupHistory, List.take_of_length_le hlen]
  | cons p rest ih =>
    obtain ⟨t, c⟩ := p
    intro cur bs hps hbs hlt hlen
    have hhead : ∀ q ∈ rest, t < q.1 := fun q hq => (List.pairwise_cons.mp hps).1 q hq
    have hbst : ∀ b ∈ bs, b.1 < t := fun b hb => hlt b hb (t, c) (List.mem_cons_self _ _)
    have hfilter : bs.filter (fun b => decide (b.1 ≠ t)) = bs := by
      apply List.filter_eq_self.mpr
      intro b hb
      simp [Nat.ne_of_lt (hbst b hb)]
    have hconsPW : ((t, cur) :: bs).Pairwise (fun x y => y.1 < x.1) :=
      List.pairwise_cons.mpr ⟨fun b hb => hbst b hb, hbs⟩
    have hsorted : sortBackupsDesc ((t, cur) :: bs) = (t, cur) :: bs :=
      sortBackupsDesc_eq_self _ hconsPW
    have hstep : (saveCookies t c { sessionFile := some cur, backups := bs }).1 =
        { sessionFile := some c, backups := ((t, cur) :: bs).take 5 } := by
      simp only [saveCookies, hfilter, hsorted, take5_ite]
    show (runPersists (saveCookies t c { sessionFile := some cur, backups := bs }).1 rest).backups = _
    rw [hstep]
    rw [ih c (((t, cur) :: bs).take 5) (List.pairwise_cons.mp hps).2
      (List.Pairwise.sublist (List.take_sublist _ _) hconsPW)
      (by
        intro b hb q hq
        rcases List.mem_cons.mp (List.mem_of_mem_take hb) with hb' | hb'
        · rw [hb']
          exact hhead q hq
        · exact hlt b hb' q (List.mem_cons_of_mem _ hq))
      (by
        rw [List.length_take]
        exact Nat.min_le_left _ _)]
    rw [take_append_take]
    simp [backupHistory, List.reverse_cons, List.append_assoc]

/-- Claim C6: starting from an existing session file with no backups, a
sequence of `N ≥ 6` successive persists (strictly increasing timestamps)
leaves exactly 5 backup files, and they are the 5 most recent prior
session states, most recent first (oldest evicted). -/
theorem saveCookies_backup_retention (init : List NormalizedCookie)
    (ps : List (Nat × List NormalizedCookie)) (h6 : 6 ≤ ps.length)
    (hmono : ps.Pairwise (fun p q => p.1 < q.1)) :
    (runPersists { sessionFile := some init, backups := [] } ps).backups =
      (backupHistory init ps).reverse.take 5 ∧
    (runPersists { sessionFile := some init, backups := [] } ps).backups.length = 5 := by
  have h := runPersists_backups_inv ps init [] hmono (by simp) (by simp) (by simp)
  rw [List.append_nil] at h
  refine ⟨h, ?_⟩
  rw [h, List.length_take, List.length_reverse, backupHistory_length]
  exact Nat.min_eq_left (Nat.le_trans (by norm_num) h6)

theorem saveCookies_backup_retention_witness :
    (6 ≤ sixPersists.length ∧ sixPersists.Pairwise (fun p q => p.1 < q.1)) ∧
    ((runPersists { sessionFile := some [mkNC ("c0")], backups := [] } sixPersists).backups =
        (backupHistory [mkNC ("c0")] sixPersists).reverse.take 5 ∧
      (runPersists { sessionFile := some [mkNC ("c0")], backups := [] } sixPersists).backups.length = 5) :=
  ⟨⟨by decide, by decide⟩,
    saveCookies_backup_retention [mkNC ("c0")] sixPersists (by decide) (by decide)⟩

theorem runAttempts_fst (o : Oracle) (i : Nat) :
    ∀ as : List Nat, ∀ p ∈ (runAttempts o i as).1, p.1 = i := by
  intro as
  induction as with
  | nil => intro p hp; simp [runAttempts] at hp
  | cons a rest ih =>
    intro p hp
    cases h : o i a with
    | none =>
      simp only [runAttempts, h] at hp
      rcases List.mem_cons.mp hp with rfl | hp'
      · rfl
      · exact ih p hp'
    | some cs =>
      cases hcs : cs.isEmpty with
      | true =>
        simp only [runAttempts, h, hcs, if_true] at hp
        rcases List.mem_cons.mp hp with rfl | hp'
        · rfl
        · exact ih p hp'
      | false =>
        simp only [runAttempts, h, hcs, if_false] at hp
        rcases List.mem_cons.mp hp with rfl | hp'
        · rfl
        · simp at hp'

theorem runAttempts_none_map (o : Oracle) (i : Nat) :
    ∀ as : List Nat, (runAttempts o i as).2 = none →
      (runAttempts o i as).1 = as.map (fun a => (i, a)) := by
  intro as
  induction as with
  | nil => intro _; rfl
  | cons a rest ih =>
    intro hn
    cases h : o i a with
    | none =>
      simp only [runAttempts, h] at hn ⊢
      rw [List.map_cons, ih hn]
    | some cs =>
      cases hcs : cs.isEmpty with
      | true =>
        simp only [runAttempts, h, hcs, if_true] at hn ⊢
        rw [List.map_cons, ih hn]
      | false =>
        simp [runAttempts, h, hcs] at hn

theorem runAttempts_none_fail (o : Oracle) (i : Nat) :
    ∀ as : List Nat, (runAttempts o i as).2 = none →
      ∀ p ∈ (runAttempts o i as).1, attemptSucceeds o p = false := by
  intro as
  induction as with
  | nil => intro _ p hp; simp [runAttempts] at hp
  | cons a rest ih =>
    intro hn p hp
    cases h : o i a with
    | none =>
      simp only [runAttempts, h] at hn hp
      rcases List.mem_cons.mp hp with rfl | hp'
      · simp [attemptSucceeds, h]
      · exact ih hn p hp'
    | some cs =>
      cases hcs : cs.isEmpty with
      | true =>
        simp only [runAttempts, h, hcs, if_true] at hn hp
        rcases List.mem_cons.mp hp with rfl | hp'
        · simp [attemptSucceeds, h, hcs]
        · exact ih hn p hp'
      | false =>
        simp [runAttempts, h, hcs] at hn

theorem runAttempts_some (o : Oracle) (i : Nat) :
    ∀ (as : List Nat) (cs : List NormalizedCookie), (runAttempts o i as).2 = some cs →
      ∃ pre q, (runAttempts o i as).1 = pre ++ [q] ∧
        (∀ p ∈ pre, attemptSucceeds o p = false) ∧ attemptSucceeds o q = true := by
  intro as
  induction as with
  | nil => intro cs h; simp [runAttempts] at h
  | cons a rest ih =>
    intro cs hn
    cases h : o i a with
    | none =>
      simp only [runAttempts, h] at hn ⊢
      obtain ⟨pre, q, htr, hpre, hq⟩ := ih cs hn
      refine ⟨(i, a) :: pre, q, by rw [htr, List.cons_append], ?_, hq⟩
      intro p hp
      rcases List.mem_cons.mp hp with rfl | hp'
      · simp [attemptSucceeds, h]
      · exact hpre p hp'
    | some cs0 =>
      cases hcs : cs0.isEmpty with
      | true =>
        simp only [runAttempts, h, hcs, if_true] at hn ⊢
        obtain ⟨pre, q, htr, hpre, hq⟩ := ih cs hn
        refine ⟨(i, a) :: pre, q, by rw [htr, List.cons_append], ?_, hq⟩
        intro p hp
        rcases List.mem_cons.mp hp with rfl | hp'
        · simp [attemptSucceeds, h, hcs]
        · exact hpre p hp'
      | false =>
        simp only [runAttempts, h, hcs, if_false] at hn ⊢
        refine ⟨[], (i, a), rfl, by simp, ?_⟩
        simp [attemptSucceeds, h, hcs]

theorem runAttempts_none_of_allfail (o : Oracle) (i : Nat)
    (hf : ∀ a, attemptSucceeds o (i, a) = false) :
    ∀ as : List Nat, (runAttempts o i as).2 = none := by
  intro as
  induction as with
  | nil => rfl
  | cons a rest ih =>
    cases h : o i a with
    | none => simp only [runAttempts, h]; exact ih
    | some cs =>
      have hcs : cs.isEmpty = true := by
        have := hf a
        simpa [attemptSucceeds, h] using this
      simp only [runAttempts, h, hcs, if_true]
      exact ih

theorem runAccounts_mem_fst (o : Oracle) (maxR : Nat) :
    ∀ is : List Nat, ∀ p ∈ (runAccounts o maxR is).1, p.1 ∈ is := by
  intro is
  induction is with
  | nil => intro p hp; simp [runAccounts] at hp
  | cons i rest ih =>
    intro p hp
    cases hr : (tryAccount o maxR i).2 with
    | some cs =>
      simp only [runAccounts, hr] at hp
      rw [runAttempts_fst o i _ p hp]
      exact List.mem_cons_self _ _
    | none =>
      simp only [runAccounts, hr] at hp
      rcases List.mem_append.mp hp with hp' | hp'
      · rw [runAttempts_fst o i _ p hp']
        exact List.mem_cons_self _ _
      · exact List.mem_cons_of_mem _ (ih p hp')

theorem runAccounts_none_fail (o : Oracle) (maxR : Nat) :
    ∀ is : List Nat, (runAccounts o maxR is).2 = none →
      ∀ p ∈ (runAccounts o maxR is).1, attemptSucceeds o p = false := by
  intro is
  induction is with
  | nil => intro _ p hp; simp [runAccounts] at hp
  | cons i rest ih =>
    intro hn p hp
    cases hr : (tryAccount o maxR i).2 with
    | some cs => simp [runAccounts, hr] at hn
    | none =>
      simp only [runAccounts, hr] at hn hp
      rcases List.mem_append.mp hp with hp' | hp'
      · exact runAttempts_none_fail o i _ hr p hp'
      · exact ih hn p hp'

theorem runAccounts_some_decomp (o : Oracle) (maxR : Nat) :
    ∀ (is : List Nat) (r : Nat × List NormalizedCookie), (runAccounts o maxR is).2 = some r →
      ∃ pre q, (runAccounts o maxR is).1 = pre ++ [q] ∧
        (∀ p ∈ pre, attemptSucceeds o p = false) ∧ attemptSucceeds o q = true := by
  intro is
  induction is with
  | nil => intro r h; simp [runAccounts] at h
  | cons i rest ih =>
    intro r hn
    cases hr : (tryAccount o maxR i).2 with
    | some cs =>
      simp only [runAccounts, hr] at hn ⊢
      exact runAttempts_some o i _ cs hr
    | none =>
      simp only [runAccounts, hr] at hn ⊢
      obtain ⟨pre, q, htr, hpre, hq⟩ := ih r hn
      refine ⟨(tryAccount o maxR i).1 ++ pre, q, by rw [htr, List.append_assoc], ?_, hq⟩
      intro p hp
      rcases List.mem_append.mp hp with hp' | hp'
      · exact runAttempts_none_fail o i _ hr p hp'
      · exact hpre p hp'

theorem pairwise_fst_le_of_const (l : List (Nat × Nat)) (i : Nat)
    (h : ∀ p ∈ l, p.1 = i) : l.Pairwise (fun p q => p.1 ≤ q.1) := by
  induction l with
  | nil => exact List.Pairwise.nil
  | cons p l ih =>
    refine List.pairwise_cons.mpr ⟨?_, ih (fun q hq => h q (List.mem_cons_of_mem _ hq))⟩
    intro q hq
    rw [h p (List.mem_cons_self _ _), h q (List.mem_cons_of_mem _ hq)]

theorem runAccounts_pairwise (o : Oracle) (maxR : Nat) :
    ∀ is : List Nat, is.Pairwise (· < ·) →
      (runAccounts o maxR is).1.Pairwise (fun p q => p.1 ≤ q.1) := by
  intro is
  induction is with
  | nil => intro _; simp [runAccounts]
  | cons i rest ih =>
    intro hpw
    obtain ⟨hlt, hrest⟩ := List.pairwise_cons.mp hpw
    cases hr : (tryAccount o maxR i).2 with
    | some cs =>
      simp only [runAccounts, hr]
      exact pairwise_fst_le_of_const _ i (runAttempts_fst o i _)
    | none =>
      simp only [runAccounts, hr]
      refine List.pairwise_append.mpr ⟨pairwise_fst_le_of_const _ i (runAttempts_fst o i _),
        ih hrest, ?_⟩
      intro p hp q hq
      rw [runAttempts_fst o i _ p hp]
      exact Nat.le_of_lt (hlt q.1 (runAccounts_mem_fst o maxR rest q hq))

theorem runAccounts_none_of_allfail (o : Oracle) (maxR : Nat)
    (hf : ∀ p, attemptSucceeds o p = false) :
    ∀ is : List Nat, (runAccounts o maxR is).2 = none := by
  intro is
  induction is with
  | nil => rfl
  | cons i rest ih =>
    have hr : (tryAccount o maxR i).2 = none :=
      runAttempts_none_of_allfail o i (fun a => hf (i, a)) _
    simp only [runAccounts, hr]
    exact ih

/-- Claim C7: accounts are attempted strictly in configuration order (the
account indices along the attempt trace are monotone, so all attempts for
account `i` precede any attempt for account `i + 1`), and an attempt that
satisfies the success test can only sit at the very end of the trace: the
controller halts on the first success, making no further attempts. -/
theorem controller_order_and_halt (o : Oracle) (maxR n : Nat) :
    (runController o maxR n).1.Pairwise (fun p q => p.1 ≤ q.1) ∧
    ∀ (j : Nat) (h : j < (runController o maxR n).1.length),
      attemptSucceeds o ((runController o maxR n).1.get ⟨j, h⟩) = true →
      j + 1 = (runController o maxR n).1.length := by
  constructor
  · exact runAccounts_pairwise o maxR (List.range n) (List.pairwise_lt_range n)
  · intro j h hsucc
    simp only [runController] at h hsucc ⊢
    cases hres : (runAccounts o maxR (List.range n)).2 with
    | none =>
      have hfail := runAccounts_none_fail o maxR (List.range n) hres
        ((runAccounts o maxR (List.range n)).1.get ⟨j, h⟩) (List.get_mem _ _ h)
      rw [hfail] at hsucc
      cases hsucc
    | some r =>
      obtain ⟨pre, q, htr, hpre, hq⟩ := runAccounts_some_decomp o maxR (List.range n) r hres
      by_cases hj : j < pre.length
      · exfalso
        have hval : (runAccounts o maxR (List.range n)).1.get ⟨j, h⟩ = pre[j] := by
          rw [List.get_eq_getElem, List.getElem_of_eq htr]
          exact List.getElem_append_left hj
        rw [hval, hpre pre[j] (List.getElem_mem hj)] at hsucc
        cases hsucc
      · have hlen : (runAccounts o maxR (List.range n)).1.length = pre.length + 1 := by
          rw [htr, List.length_append, List.length_singleton]
        omega

theorem controller_order_and_halt_witness :
    (2 < (runController oracleW7 2 2).1.length ∧
      attemptSucceeds oracleW7 ((runController oracleW7 2 2).1.get ⟨2, by decide⟩) = true) ∧
    2 + 1 = (runController oracleW7 2 2).1.length :=
  ⟨⟨by decide, by decide⟩, (controller_order_and_halt oracleW7 2 2).2 2 (by decide) (by decide)⟩

/-- Claim C1 counterexample: every attempt of the single account meets a
CAPTCHA interstitial — a `Detection` terminal failure under the
specification's classification — yet after the terminal attempt `(0, 1)`
the controller performs two further attempts `(0, 2)` and `(0, 3)`
against the same account. -/
theorem detection_still_retried_cex :
    specTerminalFailure captchaEnv = true ∧
    attemptLogin 0 captchaEnv = none ∧
    (runController oracleCaptcha 3 1).1 = [(0, 1), (0, 2), (0, 3)] := by decide

/-- Claim C1 (amended): the driver reports every failure — terminal or
retryable — identically as `null`, so the controller never skips the
remaining retry budget: an account none of whose attempts yields cookies
is attempted exactly `maxRetriesPerAccount` times (attempt numbers
`1 .. maxR`), whatever the failure kind, before control advances. -/
theorem failed_account_uses_full_retry_budget (o : Oracle) (maxR i : Nat)
    (h : (tryAccount o maxR i).2 = none) :
    (tryAccount o maxR i).1 = (List.range' 1 maxR).map (fun a => (i, a)) :=
  runAttempts_none_map o i (List.range' 1 maxR) h

theorem failed_account_uses_full_retry_budget_witness :
    (tryAccount oracleNull 3 0).2 = none ∧
    (tryAccount oracleNull 3 0).1 = (List.range' 1 3).map (fun a => (0, a)) :=
  ⟨by decide, failed_account_uses_full_retry_budget oracleNull 3 0 (by decide)⟩

/-- Claim C8: when the configuration loads but no attempt of any account
satisfies the success test, the run exits with code 1, performs no
filesystem operation, and leaves the store state — in particular the
prior session file — exactly as it was before the run. -/
theorem exhausted_run_preserves_store (src : Option ConfigSrc) (cfg : LoadedConfig)
    (o : Oracle) (now : Nat) (store : StoreState)
    (hload : loadAccountsConfig src = some cfg)
    (hfail : ∀ p, attemptSucceeds o p = false) :
    (refreshCookies src o now store).exitCode = some 1 ∧
    (refreshCookies src o now store).fsOps = [] ∧
    (refreshCookies src o now store).finalStore = store ∧
    (refreshCookies src o now store).savedCookies = none := by
  have hnone : (runController o (maxRetriesPerAccount cfg.rotation) cfg.accounts.length).2 = none :=
    runAccounts_none_of_allfail o _ hfail _
  rw [runController] at hnone
  simp [refreshCookies, hload, runController, hnone]

theorem exhausted_run_preserves_store_witness :
    loadAccountsConfig (some cfgNoRotation) = some loadedNoRotation ∧
    ((refreshCookies (some cfgNoRotation) oracleNull 0 plainStore).exitCode = some 1 ∧
      (refreshCookies (some cfgNoRotation) oracleNull 0 plainStore).fsOps = [] ∧
      (refreshCookies (some cfgNoRotation) oracleNull 0 plainStore).finalStore = plainStore ∧
      (refreshCookies (some cfgNoRotation) oracleNull 0 plainStore).savedCookies = none) :=
  ⟨by decide, exhausted_run_preserves_store (some cfgNoRotation) loadedNoRotation oracleNull 0
    plainStore (by decide) (fun _ => rfl)⟩

/-- Claim C2 (code-bug evaluation): with `rotation.failover = false`,
account 0 failing terminally (CAPTCHA) and account 1 succeeding, the
controller still rotates: it attempts account 1 and finishes successfully
with it, because line 628 consults the failover flag only for a log
message. -/
theorem failover_disabled_still_rotates :
    cfgFailoverOff.rotation.map (fun r => r.failover) = some (some false) ∧
    (refreshCookies (some cfgFailoverOff) oracleSecondAccount 0 emptyStore).successAccount
      = some 1 ∧
    (1, 1) ∈ (refreshCookies (some cfgFailoverOff) oracleSecondAccount 0 emptyStore).attempts := by
  decide

/-- Claim C9 counterexample: a configuration record with one enabled
account and no `rotation` block at all is accepted by
`loadAccountsConfig`, and the run proceeds past startup (the account is
attempted with the defaulted budget of 3), so structural invalidity of
the rotation block is not a fatal startup error. -/
theorem loadAccountsConfig_missing_rotation_cex :
    cfgNoRotation.rotation = none ∧
    loadAccountsConfig (some cfgNoRotation) = some loadedNoRotation ∧
    (refreshCookies (some cfgNoRotation) oracleNull 0 emptyStore).attempts
      = [(0, 1), (0, 2), (0, 3)] := by
  decide

/-- Claim C9 (amended): `loadAccountsConfig` fails exactly when the
source is missing or malformed, when the accounts list is absent, or when
no account survives the enabled-filter (which covers the empty list); the
`rotation` block plays no role in validation — its absence or content is
accepted unchecked. -/
theorem loadAccountsConfig_failure_iff (src : Option ConfigSrc) :
    loadAccountsConfig src = none ↔
      (src = none ∨ ∃ cfg, src = some cfg ∧
        (cfg.accounts = none ∨ ∃ l, cfg.accounts = some l ∧
          l.filter (fun acc => decide (acc.enabled ≠ some false)) = [])) := by
  cases src with
  | none => simp [loadAccountsConfig]
  | some cfg =>
    cases hacc : cfg.accounts with
    | none => simp [loadAccountsConfig, hacc]
    | some l =>
      simp only [loadAccountsConfig, hacc, Option.some.injEq, reduceCtorEq, false_or]
      constructor
      · intro hnone
        refine ⟨cfg, rfl, Or.inr ⟨l, hacc, ?_⟩⟩
        split_ifs at hnone with h1 h2
        · simp [List.length_eq_zero.mp h1]
        · exact List.length_eq_zero.mp h2
      · rintro ⟨cfg', rfl, hbad⟩
        rcases hbad with hnone | ⟨l', hl', hfil⟩
        · rw [hacc] at hnone
          cases hnone
        · rw [hacc] at hl'
          obtain rfl := Option.some.inj hl'
          split_ifs with h1 h2
          · rfl
          · rfl
          · exact absurd (by rw [hfil]; rfl) h2

/-- Claim C10: the pool filter removes exactly the accounts whose
`enabled` field is the boolean `false`: an account of the configured list
is in the loaded pool iff its `enabled` field differs from `some false`,
so a record with the field absent (or `true`) participates in the
rotation. -/
theorem enabled_filter_exact (config : ConfigSrc) (l : List AccountRec) (lc : LoadedConfig)
    (hacc : config.accounts = some l)
    (hload : loadAccountsConfig (some config) = some lc) :
    ∀ acc ∈ l, (acc ∈ lc.accounts ↔ acc.enabled ≠ some false) := by
  simp only [loadAccountsConfig, hacc] at hload
  split_ifs at hload with h1 h2
  obtain rfl := Option.some.inj hload
  intro acc hmem
  constructor
  · intro hin
    have := (List.mem_filter.mp hin).2
    simpa using this
  · intro hne
    exact List.mem_filter.mpr ⟨hmem, by simpa using hne⟩

theorem enabled_filter_exact_witness :
    (cfgMixedEnabled.accounts = some [accNoFlag, accOff, accOn] ∧
      loadAccountsConfig (some cfgMixedEnabled) = some loadedMixed ∧
      accNoFlag ∈ [accNoFlag, accOff, accOn]) ∧
    (accNoFlag ∈ loadedMixed.accounts ↔ accNoFlag.enabled ≠ some false) :=
  ⟨⟨by decide, by decide, by decide⟩,
    enabled_filter_exact cfgMixedEnabled [accNoFlag, accOff, accOn] loadedMixed
      (by decide) (by decide) accNoFlag (by decide)⟩

theorem saveCookies_direct_write_witness :
    (∃ pre, (saveCookies 1 [] plainStore).2 = pre ++ [FsOp.writeFile COOKIES_OUTPUT_PATH []]) ∧
    ∀ op ∈ (saveCookies 1 [] plainStore).2, FsOp.isRenameTo COOKIES_OUTPUT_PATH op = false :=
  saveCookies_direct_write 1 [] plainStore

theorem loadAccountsConfig_failure_iff_witness :
    loadAccountsConfig (some cfgMixedEnabled) = none ↔
      (some cfgMixedEnabled = none ∨ ∃ cfg, some cfgMixedEnabled = some cfg ∧
        (cfg.accounts = none ∨ ∃ l, cfg.accounts = some l ∧
          l.filter (fun acc => decide (acc.enabled ≠ some false)) = [])) :=
  loadAccountsConfig_failure_iff (some cfgMixedEnabled)
